import Mathlib

/-!
Formal model of `route_analyzer.py`.

Python strings are modelled as `List Char`.  Python's `str.split(sep)`,
`str.strip()`, substring containment (`sep in s`), and negative indexing
(`xs[-1]`, `xs[0]`) are modelled by executable functions below whose
semantics match Python's for the separators actually used by the source
(`"/"`, `"?"`, `"&"` — one character — and `"v="` — two characters).
-/

/-- Python `sep in s` (substring containment) for `sep = needle`:
true iff some contiguous run of `hay` equals `needle`. -/
def containsSub (needle : List Char) : List Char → Bool
  | [] => needle.isEmpty
  | a :: t => needle.isPrefixOf (a :: t) || containsSub needle t

/-- Python `s.split(sep)` for a one-character separator `c`:
splits at every occurrence, keeps empty segments, result is never empty. -/
def pySplit1 (c : Char) : List Char → List (List Char)
  | [] => [[]]
  | a :: rest =>
    if a = c then [] :: pySplit1 c rest
    else
      match pySplit1 c rest with
      | [] => [[a]]
      | h :: t => (a :: h) :: t

/-- Python `s.split("v=")`: the two-character separator used by the source.
At each position, if the next two characters are `v,=` the string is cut
there and scanning resumes after them; otherwise scanning advances one
character. -/
def pySplitVEq : List Char → List (List Char)
  | [] => [[]]
  | [a] => [[a]]
  | a :: b :: rest =>
    if a = 'v' ∧ b = '=' then
      [] :: pySplitVEq rest
    else
      match pySplitVEq (b :: rest) with
      | [] => [[a]]
      | h :: t => (a :: h) :: t

/-- Python `xs[0]` on the (always non-empty) result of a split. -/
def head1 : List (List Char) → List Char
  | [] => []
  | h :: _ => h

/-- Python `xs[-1]` on the (always non-empty) result of a split. -/
def last1 : List (List Char) → List Char
  | [] => []
  | [x] => x
  | _ :: y :: xs => last1 (y :: xs)

/-- The whitespace characters removed by Python `str.strip()`. -/
def isPySpace (c : Char) : Bool :=
  c = ' ' || c = '\t' || c = '\n' || c = '\r' || c = '\x0b' || c = '\x0c'

/-- Python `s.strip()`: remove leading and trailing whitespace. -/
def pyStrip (s : List Char) : List Char :=
  (((s.dropWhile isPySpace).reverse).dropWhile isPySpace).reverse

/-- Source `get_video_id` (route_analyzer.py lines 51-57):

    if "youtu.be" in url: return url.split("/")[-1].split("?")[0]
    elif "v=" in url:     return url.split("v=")[-1].split("&")[0]
    return None
-/
def get_video_id (url : List Char) : Option (List Char) :=
  if containsSub ("youtu.be".toList) url then
    some (head1 (pySplit1 '?' (last1 (pySplit1 '/' url))))
  else if containsSub ("v=".toList) url then
    some (head1 (pySplit1 '&' (last1 (pySplitVEq url))))
  else
    none

/-- The structured route result (spec §3 RouteRecord): `start`, `end`
(named `endPoint`, since `end` is reserved in Lean), and the ordered
waypoint list. -/
structure RouteRecord where
  start : List Char
  endPoint : List Char
  waypoints : List (List Char)

/-- Source `main` lines 182-192: the fixed-width write vector.

    write_data = [start_point]
    for i in range(10):
        if i < len(waypoints): write_data.append(waypoints[i])
        else:                  write_data.append("")
    write_data.append(end_point)

`r.waypoints.getD i []` is exactly `waypoints[i] if i < len(waypoints)
else ""`. -/
def write_data (r : RouteRecord) : List (List Char) :=
  [r.start] ++ (List.range 10).map (fun i => r.waypoints.getD i []) ++ [r.endPoint]

lemma head1_cons (h : List Char) (t : List (List Char)) : head1 (h :: t) = h := rfl

lemma last1_append_singleton (X : List (List Char)) (y : List Char) :
    last1 (X ++ [y]) = y := by
  induction X with
  | nil => rfl
  | cons x X ih =>
    cases X with
    | nil => rfl
    | cons z zs => simpa [last1] using ih

/-- The waypoint slots of the loop: first `min w 10` waypoints, then
padding empties. -/
lemma range_map_getD (ws : List (List Char)) (n : Nat) :
    (List.range n).map (fun i => ws.getD i []) =
      ws.take n ++ List.replicate (n - min ws.length n) ([] : List Char) := by
  induction ws generalizing n with
  | nil =>
    simp [List.map_const', List.getD]
  | cons w ws ih =>
    cases n with
    | zero => simp
    | succ n =>
      rw [List.range_succ_eq_map, List.map_cons, List.map_map]
      have hcomp :
          ((fun i => List.getD (w :: ws) i []) ∘ Nat.succ) =
            (fun i => ws.getD i []) := by
        funext i
        simp [List.getD]
      rw [hcomp, ih]
      have hmin : min (w :: ws).length (n + 1) = min ws.length n + 1 := by
        simp [List.length_cons, Nat.succ_min_succ]
      simp [List.getD, hmin, List.take_cons]
      omega

lemma pySplit1_cons_eq (c : Char) (rest : List Char) :
    pySplit1 c (c :: rest) = [] :: pySplit1 c rest := by
  simp [pySplit1]

lemma pySplit1_cons_ne (a c : Char) (rest : List Char) (h : ¬ a = c) :
    pySplit1 c (a :: rest) =
      match pySplit1 c rest with
      | [] => [[a]]
      | h0 :: t0 => (a :: h0) :: t0 := by
  simp [pySplit1, h]

lemma pySplit1_not_mem (c : Char) (s : List Char) (h : c ∉ s) : pySplit1 c s = [s] := by
  induction s with
  | nil => rfl
  | cons a rest ih =>
    have hac : ¬ a = c := by rintro rfl; exact h (List.mem_cons_self a rest)
    have hcr : c ∉ rest := fun hm => h (List.mem_cons_of_mem _ hm)
    rw [pySplit1_cons_ne a c rest hac, ih hcr]

lemma pySplit1_append_last (c : Char) (s tail : List Char) (h : c ∉ tail) :
    ∃ X, X ≠ [] ∧ pySplit1 c (s ++ c :: tail) = X ++ [tail] := by
  induction s with
  | nil =>
    refine ⟨[[]], by simp, ?_⟩
    show pySplit1 c (c :: tail) = [[]] ++ [tail]
    rw [pySplit1_cons_eq, pySplit1_not_mem c tail h]
    rfl
  | cons a s ih =>
    obtain ⟨X, hX, hsplit⟩ := ih
    by_cases hac : a = c
    · refine ⟨[] :: X, by simp, ?_⟩
      subst hac
      show pySplit1 a (a :: (s ++ a :: tail)) = ([] :: X) ++ [tail]
      rw [pySplit1_cons_eq, hsplit]
      rfl
    · cases X with
      | nil => exact absurd rfl hX
      | cons h0 t0 =>
        refine ⟨(a :: h0) :: t0, by simp, ?_⟩
        show pySplit1 c (a :: (s ++ c :: tail)) = ((a :: h0) :: t0) ++ [tail]
        rw [pySplit1_cons_ne a c _ hac, hsplit]
        rfl

lemma pySplit1_last (c : Char) (s tail : List Char) (h : c ∉ tail) :
    last1 (pySplit1 c (s ++ c :: tail)) = tail := by
  obtain ⟨X, _, hsplit⟩ := pySplit1_append_last c s tail h
  rw [hsplit, last1_append_singleton]

lemma pySplit1_head_aux (c : Char) (pre suf : List Char) (h : c ∉ pre) :
    ∃ Y, pySplit1 c (pre ++ c :: suf) = pre :: Y := by
  induction pre with
  | nil =>
    refine ⟨pySplit1 c suf, ?_⟩
    show pySplit1 c (c :: suf) = [] :: pySplit1 c suf
    exact pySplit1_cons_eq c suf
  | cons a pre ih =>
    have hac : ¬ a = c := by rintro rfl; exact h (List.mem_cons_self a pre)
    have hpr : c ∉ pre := fun hm => h (List.mem_cons_of_mem _ hm)
    obtain ⟨Y, hY⟩ := ih hpr
    refine ⟨Y, ?_⟩
    show pySplit1 c (a :: (pre ++ c :: suf)) = (a :: pre) :: Y
    rw [pySplit1_cons_ne a c _ hac, hY]

lemma pySplit1_head (c : Char) (pre suf : List Char) (h : c ∉ pre) :
    head1 (pySplit1 c (pre ++ c :: suf)) = pre := by
  obtain ⟨Y, hY⟩ := pySplit1_head_aux c pre suf h
  rw [hY]
  rfl

lemma pySplit1_head_no_occ (c : Char) (s : List Char) (h : c ∉ s) :
    head1 (pySplit1 c s) = s := by
  rw [pySplit1_not_mem c s h]; rfl

lemma pySplitVEq_cons_vEq (rest : List Char) :
    pySplitVEq ('v' :: '=' :: rest) = [] :: pySplitVEq rest := by
  simp [pySplitVEq]

lemma pySplitVEq_cons_ne (a b : Char) (rest : List Char) (h : ¬ (a = 'v' ∧ b = '=')) :
    pySplitVEq (a :: b :: rest) =
      match pySplitVEq (b :: rest) with
      | [] => [[a]]
      | h0 :: t0 => (a :: h0) :: t0 := by
  simp [pySplitVEq, h]

lemma pySplitVEq_no_occ (s : List Char) (h : containsSub ['v', '='] s = false) :
    pySplitVEq s = [s] := by
  induction s with
  | nil => rfl
  | cons a t ih =>
    cases t with
    | nil => rfl
    | cons b rest =>
      rw [show containsSub ['v', '='] (a :: b :: rest) =
            (['v', '='].isPrefixOf (a :: b :: rest) || containsSub ['v', '='] (b :: rest))
          from rfl, Bool.or_eq_false_iff] at h
      obtain ⟨h1, h2⟩ := h
      have hcond : ¬ (a = 'v' ∧ b = '=') := by
        rintro ⟨rfl, rfl⟩
        simp [List.isPrefixOf] at h1
      rw [pySplitVEq_cons_ne a b rest hcond, ih h2]

lemma pySplitVEq_append_last_aux :
    ∀ (n : Nat) (p mid : List Char), p.length ≤ n →
      containsSub ['v', '='] mid = false →
      ∃ X, X ≠ [] ∧ pySplitVEq (p ++ 'v' :: '=' :: mid) = X ++ [mid] := by
  intro n
  induction n with
  | zero =>
    intro p mid hp hmid
    have hpnil : p = [] := List.eq_nil_of_length_eq_zero (Nat.le_zero.mp hp)
    subst hpnil
    refine ⟨[[]], by simp, ?_⟩
    show pySplitVEq ('v' :: '=' :: mid) = [[]] ++ [mid]
    rw [pySplitVEq_cons_vEq, pySplitVEq_no_occ mid hmid]
    rfl
  | succ n ih =>
    intro p mid hp hmid
    cases p with
    | nil =>
      refine ⟨[[]], by simp, ?_⟩
      show pySplitVEq ('v' :: '=' :: mid) = [[]] ++ [mid]
      rw [pySplitVEq_cons_vEq, pySplitVEq_no_occ mid hmid]
      rfl
    | cons a p' =>
      cases p' with
      | nil =>
        have hcond : ¬ (a = 'v' ∧ 'v' = '=') := by
          rintro ⟨_, hh⟩; exact absurd hh (by decide)
        obtain ⟨X, hX, hsplit⟩ := ih [] mid (by simp) hmid
        have hsplit' : pySplitVEq ('v' :: '=' :: mid) = X ++ [mid] := hsplit
        cases X with
        | nil => exact absurd rfl hX
        | cons h0 t0 =>
          refine ⟨(a :: h0) :: t0, by simp, ?_⟩
          show pySplitVEq (a :: 'v' :: '=' :: mid) = ((a :: h0) :: t0) ++ [mid]
          rw [pySplitVEq_cons_ne a 'v' _ hcond, hsplit']
          rfl
      | cons b p'' =>
        by_cases hcond : a = 'v' ∧ b = '='
        · obtain ⟨X, hX, hsplit⟩ := ih p'' mid (by simp at hp ⊢; omega) hmid
          refine ⟨[] :: X, by simp, ?_⟩
          obtain ⟨rfl, rfl⟩ := hcond
          show pySplitVEq ('v' :: '=' :: (p'' ++ 'v' :: '=' :: mid)) = ([] :: X) ++ [mid]
          rw [pySplitVEq_cons_vEq, hsplit]
          rfl
        · obtain ⟨X, hX, hsplit⟩ := ih (b :: p'') mid (by simp at hp ⊢; omega) hmid
          cases X with
          | nil => exact absurd rfl hX
          | cons h0 t0 =>
            refine ⟨(a :: h0) :: t0, by simp, ?_⟩
            have hsplit' : pySplitVEq (b :: (p'' ++ 'v' :: '=' :: mid)) = (h0 :: t0) ++ [mid] :=
              hsplit
            show pySplitVEq (a :: b :: (p'' ++ 'v' :: '=' :: mid)) = ((a :: h0) :: t0) ++ [mid]
            rw [pySplitVEq_cons_ne a b _ hcond, hsplit']
            rfl

lemma pySplitVEq_last (p mid : List Char) (hmid : containsSub ['v', '='] mid = false) :
    last1 (pySplitVEq (p ++ 'v' :: '=' :: mid)) = mid := by
  obtain ⟨X, _, hsplit⟩ := pySplitVEq_append_last_aux p.length p mid (Nat.le_refl _) hmid
  rw [hsplit, last1_append_singleton]

lemma containsSub_append_of_isPrefixOf (n s t : List Char) (h : n.isPrefixOf t = true) :
    containsSub n (s ++ t) = true := by
  induction s with
  | nil =>
    cases t with
    | nil =>
      cases n with
      | nil => rfl
      | cons a l => simp [List.isPrefixOf] at h
    | cons a t' => simp [containsSub, h]
  | cons a s ih => simp [containsSub, ih]

lemma vEq_toList : "v=".toList = ['v', '='] := rfl

/-- C1: for every RouteRecord the assembled write vector has length
exactly 12: position 0 is `start`, positions 1..10 hold the first
`min w 10` waypoints in original order followed by `10 - min w 10`
empty strings (waypoints beyond the 10th are dropped), and position 11
is `end`. -/
theorem C1_write_vector_fixed_width (r : RouteRecord) :
    (write_data r).length = 12 ∧
      write_data r =
        [r.start] ++
          (r.waypoints.take 10 ++
            List.replicate (10 - min r.waypoints.length 10) ([] : List Char)) ++
          [r.endPoint] := by
  constructor
  · simp [write_data]
  · rw [write_data, range_map_getD]

/-- C4: for every reference of the short-form shape (final path segment
`<id>` or `<id>?<suffix>` of a string containing the short-form host
marker `youtu.be`), `get_video_id` returns exactly `<id>`; and for every
reference of the long-form shape (containing `v=<id>&<rest>` at the last
occurrence of the parameter marker `v=`, without the short-form host
marker), it returns exactly `<id>`.  The shape conditions are the
hypotheses: `<id>` is a final path segment (no `/` in it or in the
suffix), queries are stripped at the first `?`, the long-form value ends
at the next `&`, and the quoted occurrence of `v=` is the last one. -/
theorem C4_resolver_extracts_id :
    (∀ p seg q : List Char,
        containsSub ("youtu.be".toList) (p ++ '/' :: (seg ++ '?' :: q)) = true →
        '/' ∉ seg → '/' ∉ q → '?' ∉ seg →
        get_video_id (p ++ '/' :: (seg ++ '?' :: q)) = some seg)
  ∧ (∀ p seg : List Char,
        containsSub ("youtu.be".toList) (p ++ '/' :: seg) = true →
        '/' ∉ seg → '?' ∉ seg →
        get_video_id (p ++ '/' :: seg) = some seg)
  ∧ (∀ p seg q : List Char,
        containsSub ("youtu.be".toList) (p ++ 'v' :: '=' :: (seg ++ '&' :: q)) = false →
        containsSub ("v=".toList) (seg ++ '&' :: q) = false →
        '&' ∉ seg →
        get_video_id (p ++ 'v' :: '=' :: (seg ++ '&' :: q)) = some seg) := by
  refine ⟨?_, ?_, ?_⟩
  · intro p seg q hmark hs hq hseg
    have htail : '/' ∉ seg ++ '?' :: q := by
      intro hmem
      rcases List.mem_append.mp hmem with hm | hm
      · exact hs hm
      · rcases List.mem_cons.mp hm with hm | hm
        · exact absurd hm (by decide)
        · exact hq hm
    unfold get_video_id
    rw [if_pos hmark, pySplit1_last '/' p _ htail, pySplit1_head '?' seg q hseg]
  · intro p seg hmark hs hseg
    unfold get_video_id
    rw [if_pos hmark, pySplit1_last '/' p seg hs, pySplit1_head_no_occ '?' seg hseg]
  · intro p seg q hmark hsub hseg
    have hmid : containsSub ['v', '='] (seg ++ '&' :: q) = false := by
      rw [← vEq_toList]; exact hsub
    have hv : containsSub ("v=".toList) (p ++ 'v' :: '=' :: (seg ++ '&' :: q)) = true := by
      apply containsSub_append_of_isPrefixOf
      rw [vEq_toList]
      simp [List.isPrefixOf]
    unfold get_video_id
    rw [if_neg (show ¬ containsSub ("youtu.be".toList)
          (p ++ 'v' :: '=' :: (seg ++ '&' :: q)) = true from
        fun hh => by rw [hmark] at hh; exact Bool.noConfusion hh)]
    rw [if_pos hv, pySplitVEq_last p _ hmid, pySplit1_head '&' seg q hseg]

theorem C4_resolver_extracts_id_witness :
    get_video_id ("https://youtu.be/abc?t=5".toList) = some ("abc".toList) ∧
    get_video_id ("https://youtu.be/xyz".toList) = some ("xyz".toList) ∧
    get_video_id ("https://www.example.com/watch?v=abc123&t=5".toList) =
      some ("abc123".toList) := by
  refine ⟨?_, ?_, ?_⟩
  · have e : "https://youtu.be/abc?t=5".toList =
        "https://youtu.be".toList ++ '/' :: ("abc".toList ++ '?' :: "t=5".toList) := by decide
    rw [e]
    exact C4_resolver_extracts_id.1 _ _ _ (by decide) (by decide) (by decide) (by decide)
  · have e : "https://youtu.be/xyz".toList =
        "https://youtu.be".toList ++ '/' :: "xyz".toList := by decide
    rw [e]
    exact C4_resolver_extracts_id.2.1 _ _ (by decide) (by decide) (by decide)
  · have e : "https://www.example.com/watch?v=abc123&t=5".toList =
        "https://www.example.com/watch?".toList ++
          'v' :: '=' :: ("abc123".toList ++ '&' :: "t=5".toList) := by decide
    rw [e]
    exact C4_resolver_extracts_id.2.2 _ _ _ (by decide) (by decide) (by decide)

/-- C5: `get_video_id` returns `none` exactly when the reference matches
neither recognized shape, i.e. it contains neither the short-form host
marker `youtu.be` nor the long-form parameter marker `v=`; the function
is total (never raises). -/
theorem C5_resolver_none_iff_no_marker (url : List Char) :
    get_video_id url = none ↔
      containsSub ("youtu.be".toList) url = false ∧
        containsSub ("v=".toList) url = false := by
  unfold get_video_id
  by_cases h1 : containsSub ("youtu.be".toList) url = true
  · rw [if_pos h1]
    constructor
    · intro hh; exact Option.noConfusion hh
    · rintro ⟨hf, _⟩; rw [h1] at hf; exact Bool.noConfusion hf
  · rw [if_neg h1]
    by_cases h2 : containsSub ("v=".toList) url = true
    · rw [if_pos h2]
      constructor
      · intro hh; exact Option.noConfusion hh
      · rintro ⟨_, hf⟩; rw [h2] at hf; exact Bool.noConfusion hf
    · rw [if_neg h2]
      constructor
      · intro _; exact ⟨by simpa using h1, by simpa using h2⟩
      · intro _; rfl

/-- One narration fragment returned by the transcript provider: a dict
with keys `text`, `start`, `duration`.  Only `text` is used by the
source; the timestamps (floats in the provider) are carried opaquely as
integers since they are discarded unread. -/
structure TranscriptItem where
  text : List Char
  start : Int
  duration : Int

/-- Failure classification of the provider call (spec §4.2): the
dedicated `TranscriptsDisabled` exception, or any other exception. -/
inductive TranscriptFailure where
  | disabled
  | otherError (msg : List Char)

/-- Source `get_transcript` (route_analyzer.py lines 59-74), with the
external provider call `YouTubeTranscriptApi.get_transcript` passed in
as a function: on success the fragment texts are joined by
`" ".join([item['text'] for item in transcript_list])`; both `except`
arms return `None`. -/
def get_transcript
    (provider : List Char → Except TranscriptFailure (List TranscriptItem))
    (video_id : List Char) : Option (List Char) :=
  match provider video_id with
  | Except.ok transcript_list =>
      some (List.intercalate [' '] (transcript_list.map TranscriptItem.text))
  | Except.error _ => none

/-- Spec-side description of `" ".join`: the fragments in order with
exactly one space between consecutive fragments. -/
def spaceJoin : List (List Char) → List Char
  | [] => []
  | [t] => t
  | t :: u :: rest => t ++ ' ' :: spaceJoin (u :: rest)

lemma intercalate_eq_spaceJoin (ts : List (List Char)) :
    List.intercalate [' '] ts = spaceJoin ts := by
  induction ts with
  | nil => rfl
  | cons t rest ih =>
    cases rest with
    | nil => simp [List.intercalate, spaceJoin]
    | cons u rest2 =>
      rw [show spaceJoin (t :: u :: rest2) = t ++ ' ' :: spaceJoin (u :: rest2) from rfl, ← ih]
      simp [List.intercalate, List.intersperse]

/-- C6: whenever the provider call succeeds with a fragment sequence,
`get_transcript` returns the fragments' `text` fields concatenated in
their original order with exactly one space between consecutive
fragments; the timestamp fields are discarded (the result depends only
on the `text` projection). -/
theorem C6_transcript_space_join
    (provider : List Char → Except TranscriptFailure (List TranscriptItem))
    (video_id : List Char) (items : List TranscriptItem)
    (h : provider video_id = Except.ok items) :
    get_transcript provider video_id = some (spaceJoin (items.map TranscriptItem.text)) := by
  unfold get_transcript
  rw [h]
  show some (List.intercalate [' '] (items.map TranscriptItem.text)) = _
  rw [intercalate_eq_spaceJoin]

theorem C6_transcript_space_join_witness :
    get_transcript
      (fun _ => Except.ok
        [⟨"first fragment".toList, 0, 3⟩, ⟨"second".toList, 3, 2⟩, ⟨"third".toList, 5, 1⟩])
      ("abc".toList) =
      some (spaceJoin ["first fragment".toList, "second".toList, "third".toList]) := by
  exact C6_transcript_space_join
    (fun _ => Except.ok
      [⟨"first fragment".toList, 0, 3⟩, ⟨"second".toList, 3, 2⟩, ⟨"third".toList, 5, 1⟩])
    ("abc".toList)
    [⟨"first fragment".toList, 0, 3⟩, ⟨"second".toList, 3, 2⟩, ⟨"third".toList, 5, 1⟩]
    rfl

/-- JSON values, the possible results of Python `json.loads` on the
extraction-service response text. -/
inductive Json where
  | null
  | bool (b : Bool)
  | num (n : Int)
  | str (s : List Char)
  | arr (elems : List Json)
  | obj (fields : List (List Char × Json))

/-- The three required keys checked by the source. -/
def startKey : List Char := "start".toList

def endKey : List Char := "end".toList

def waypointsKey : List Char := "waypoints".toList

/-- The zero-value RouteRecord returned on any failure:
`{'start': '', 'end': '', 'waypoints': []}`. -/
def zeroRecord : Json :=
  Json.obj [(startKey, Json.str []), (endKey, Json.str []), (waypointsKey, Json.arr [])]

/-- Membership of `key` among an object's keys (Python `key in dict`). -/
def hasKeyB (fields : List (List Char × Json)) (key : List Char) : Bool :=
  fields.any (fun kv => kv.1 == key)

/-- Python's `key in value` for a parsed JSON value: key lookup for a
dict, element equality for a list, substring test for a string, and a
`TypeError` (modelled as `none`) for the non-container values. -/
def pyInKey (key : List Char) : Json → Option Bool
  | Json.obj fields => some (hasKeyB fields key)
  | Json.arr elems =>
      some (elems.any (fun j => match j with
        | Json.str s => s == key
        | _ => false))
  | Json.str s => some (containsSub key s)
  | _ => none

/-- The source's short-circuit conjunction
`'start' in r and 'end' in r and 'waypoints' in r`:
`none` models a raised `TypeError`. -/
def checkKeys (j : Json) : Option Bool :=
  match pyInKey startKey j with
  | none => none
  | some false => some false
  | some true =>
    match pyInKey endKey j with
    | none => none
    | some false => some false
    | some true => pyInKey waypointsKey j

/-- Source `analyze_route_with_gemini` (route_analyzer.py lines 76-122)
from the service call on: `callResult` is the outcome of the
`generate_content` call followed by `.text` (error = any raised
exception), `jsonParse` models Python `json.loads` (`none` = parse
error).  Every raised exception is caught by the `except` arm and
becomes the zero record; if the three membership tests pass, the parsed
value is returned as-is. -/
def analyze_route_with_gemini (callResult : Except (List Char) (List Char))
    (jsonParse : List Char → Option Json) : Json :=
  match callResult with
  | Except.error _ => zeroRecord
  | Except.ok text =>
    match jsonParse text with
    | none => zeroRecord
    | some analysis_result =>
      match checkKeys analysis_result with
      | some true => analysis_result
      | _ => zeroRecord

/-- A value that is a record (JSON object) carrying all three required
keys — what the claim calls "a record with all three fields present". -/
def isRecordWithAllFields : Json → Bool
  | Json.obj fields =>
      hasKeyB fields startKey && (hasKeyB fields endKey && hasKeyB fields waypointsKey)
  | _ => false

lemma pyInKey_obj (key : List Char) (fields : List (List Char × Json)) :
    pyInKey key (Json.obj fields) = some (hasKeyB fields key) := rfl

lemma checkKeys_obj (fields : List (List Char × Json)) :
    checkKeys (Json.obj fields) =
      some (hasKeyB fields startKey &&
        (hasKeyB fields endKey && hasKeyB fields waypointsKey)) := by
  unfold checkKeys
  simp only [pyInKey_obj]
  cases hasKeyB fields startKey <;> cases hasKeyB fields endKey <;>
    cases hasKeyB fields waypointsKey <;> rfl

/-- C3 counterexample: the response text parsing to the JSON array
`["start", "end", "waypoints"]` passes all three Python membership
tests, so the extractor returns that array unchanged — not the
zero-value RouteRecord, and not an object with the three fields — even
though, as an object-field check, the parsed value lacks all three
keys.  `zeroRecord` itself does satisfy the field check, so the output
differs from the zero record. -/
theorem C3_extractor_counterexample :
    isRecordWithAllFields
      (analyze_route_with_gemini (Except.ok ("resp".toList))
        (fun _ => some (Json.arr
          [Json.str ("start".toList), Json.str ("end".toList),
           Json.str ("waypoints".toList)]))) = false ∧
    isRecordWithAllFields zeroRecord = true := by
  exact ⟨rfl, rfl⟩

/-- C3 (amended): a failed service call or unparseable response text
yields exactly the zero-value RouteRecord; a parsed object missing any
of the three keys yields exactly the zero-value RouteRecord; and
whenever the parsed value is an object, the extractor's result is an
object with all three fields present.  (The function is total: every
exception arm is modelled, none propagates.  The original claim's
"always yields a record with all three fields" fails only for
non-object parsed values that pass Python's membership tests, as the
counterexample shows.) -/
theorem C3_extractor_zero_on_malformed :
    (∀ e jp, analyze_route_with_gemini (Except.error e) jp = zeroRecord)
  ∧ (∀ t jp, jp t = none → analyze_route_with_gemini (Except.ok t) jp = zeroRecord)
  ∧ (∀ t jp fields, jp t = some (Json.obj fields) →
      (hasKeyB fields startKey = false ∨ hasKeyB fields endKey = false ∨
        hasKeyB fields waypointsKey = false) →
      analyze_route_with_gemini (Except.ok t) jp = zeroRecord)
  ∧ (∀ t jp fields, jp t = some (Json.obj fields) →
      isRecordWithAllFields (analyze_route_with_gemini (Except.ok t) jp) = true) := by
  refine ⟨fun e jp => rfl, fun t jp h => ?_, fun t jp fields h hmiss => ?_, fun t jp fields h => ?_⟩
  · unfold analyze_route_with_gemini
    show (match jp t with
      | none => zeroRecord
      | some analysis_result =>
        match checkKeys analysis_result with
        | some true => analysis_result
        | _ => zeroRecord) = zeroRecord
    rw [h]
  · unfold analyze_route_with_gemini
    show (match jp t with
      | none => zeroRecord
      | some analysis_result =>
        match checkKeys analysis_result with
        | some true => analysis_result
        | _ => zeroRecord) = zeroRecord
    rw [h]
    show (match checkKeys (Json.obj fields) with
      | some true => Json.obj fields
      | _ => zeroRecord) = zeroRecord
    rw [checkKeys_obj]
    rcases hmiss with hm | hm | hm <;> simp [hm]
  · unfold analyze_route_with_gemini
    show isRecordWithAllFields (match jp t with
      | none => zeroRecord
      | some analysis_result =>
        match checkKeys analysis_result with
        | some true => analysis_result
        | _ => zeroRecord) = true
    rw [h]
    show isRecordWithAllFields (match checkKeys (Json.obj fields) with
      | some true => Json.obj fields
      | _ => zeroRecord) = true
    rw [checkKeys_obj]
    cases h1 : hasKeyB fields startKey with
    | false => rfl
    | true =>
      cases h2 : hasKeyB fields endKey with
      | false => rfl
      | true =>
        cases h3 : hasKeyB fields waypointsKey with
        | false => rfl
        | true =>
          show (hasKeyB fields startKey &&
            (hasKeyB fields endKey && hasKeyB fields waypointsKey)) = true
          rw [h1, h2, h3]
          rfl

theorem C3_extractor_zero_on_malformed_witness :
    analyze_route_with_gemini (Except.error ("network down".toList)) (fun _ => none)
      = zeroRecord ∧
    analyze_route_with_gemini (Except.ok ("not json".toList)) (fun _ => none)
      = zeroRecord ∧
    analyze_route_with_gemini (Except.ok ("resp".toList))
      (fun _ => some (Json.obj [("start".toList, Json.str ("A".toList))]))
      = zeroRecord ∧
    isRecordWithAllFields
      (analyze_route_with_gemini (Except.ok ("resp".toList))
        (fun _ => some (Json.obj
          [("start".toList, Json.str ("A".toList)),
           ("end".toList, Json.str ("B".toList)),
           ("waypoints".toList, Json.arr [])]))) = true := by
  refine ⟨C3_extractor_zero_on_malformed.1 _ _,
    C3_extractor_zero_on_malformed.2.1 _ _ rfl,
    C3_extractor_zero_on_malformed.2.2.1 _ _ _ rfl (Or.inr (Or.inl rfl)),
    C3_extractor_zero_on_malformed.2.2.2 _ _ _ rfl⟩

/-- Row cell read (route_analyzer.py lines 149-150):
`row[i].strip() if len(row) > i else ""`. -/
def cellAt (row : List (List Char)) (i : Nat) : List Char :=
  if h : i < row.length then pyStrip (row.get ⟨i, h⟩) else []

/-- Per-row outcome of the loop body (spec §4.4): `continue` after a
skip message, `continue` after an error message, or an appended update
(range row number, values). -/
inductive Outcome where
  | skipped (reason : String)
  | failed (reason : String)
  | written (sheetRow : Nat) (values : List (List Char))
deriving DecidableEq

/-- Instrumentation: the collaborator calls the loop body makes, in
order. -/
inductive CallEvent where
  | resolveCall (url : List Char)
  | transcriptCall (video_id : List Char)
  | extractCall (transcript : List Char)
deriving DecidableEq

def isExtractCall : CallEvent → Bool
  | CallEvent.extractCall _ => true
  | _ => false

def isWritten : Outcome → Bool
  | Outcome.written _ _ => true
  | _ => false

/-- Source `main` loop body (route_analyzer.py lines 144-202) for one
row, parameterized by the transcript provider (consumed through
`get_transcript`) and the Route Extractor collaborator (spec §4.3
guarantees extraction always yields a well-formed record; its
JSON-level behaviour is modelled separately by
`analyze_route_with_gemini`).  Python falsiness of `url`, `video_id`
and `transcript` (both `None` and `""`) is modelled by the explicit
empty checks.  The second component records which collaborator calls
were made. -/
def process_row
    (provider : List Char → Except TranscriptFailure (List TranscriptItem))
    (extract : List Char → RouteRecord)
    (row : List (List Char)) (sheet_row_number : Nat) :
    Outcome × List CallEvent :=
  if cellAt row 4 = [] then (Outcome.skipped "URL is empty", [])
  else if cellAt row 12 ≠ [] then (Outcome.skipped "Already analyzed", [])
  else
    match get_video_id (cellAt row 4) with
    | none => (Outcome.failed "Invalid YouTube URL format",
        [CallEvent.resolveCall (cellAt row 4)])
    | some video_id =>
      if video_id = [] then
        (Outcome.failed "Invalid YouTube URL format",
          [CallEvent.resolveCall (cellAt row 4)])
      else
        match get_transcript provider video_id with
        | none => (Outcome.failed "Could not retrieve transcript",
            [CallEvent.resolveCall (cellAt row 4), CallEvent.transcriptCall video_id])
        | some transcript =>
          if transcript = [] then
            (Outcome.failed "Could not retrieve transcript",
              [CallEvent.resolveCall (cellAt row 4), CallEvent.transcriptCall video_id])
          else
            (Outcome.written sheet_row_number (write_data (extract transcript)),
              [CallEvent.resolveCall (cellAt row 4), CallEvent.transcriptCall video_id,
               CallEvent.extractCall transcript])

/-- The effect of the batch update `M{n}:X{n}` on the row: columns
12..23 become the 12 written values (the row is padded with empty cells
up to column 12 first, as the sheet does). -/
def applyWrite (row : List (List Char)) (vals : List (List Char)) : List (List Char) :=
  (row ++ List.replicate (12 - row.length) []).take 12 ++ vals

lemma cellAt_out_of_range (row : List (List Char)) (i : Nat) (h : row.length ≤ i) :
    cellAt row i = [] := by
  unfold cellAt
  rw [dif_neg (by omega)]

lemma cellAt_eq_get? (row : List (List Char)) (i : Nat) :
    cellAt row i = pyStrip ((row.get? i).getD []) := by
  unfold cellAt
  by_cases h : i < row.length
  · rw [dif_pos h, List.get?_eq_get h]
    rfl
  · rw [dif_neg h, List.get?_eq_none.mpr (by omega)]
    rfl

lemma applyWrite_prefix_length (row : List (List Char)) :
    ((row ++ List.replicate (12 - row.length) ([] : List Char)).take 12).length = 12 := by
  simp [List.length_take, List.length_append, List.length_replicate]
  omega

lemma cellAt_applyWrite_lt (row vals : List (List Char)) (i : Nat) (h : i < 12) :
    cellAt (applyWrite row vals) i = cellAt row i := by
  rw [cellAt_eq_get?, cellAt_eq_get?]
  unfold applyWrite
  rw [List.get?_append (by rw [applyWrite_prefix_length]; exact h)]
  rw [List.get?_take h]
  by_cases hr : i < row.length
  · rw [List.get?_append hr]
  · rw [List.get?_append_right (by omega)]
    have hrep : (List.replicate (12 - row.length) ([] : List Char)).get? (i - row.length)
        = some [] := by
      rw [List.get?_eq_get (by simp [List.length_replicate]; omega)]
      simp [List.get_replicate]
    rw [hrep]
    have hrow : row.get? i = none := List.get?_eq_none.mpr (by omega)
    rw [hrow]
    rfl

lemma cellAt_applyWrite_12 (row : List (List Char)) (v0 : List Char) (vs : List (List Char)) :
    cellAt (applyWrite row (v0 :: vs)) 12 = pyStrip v0 := by
  rw [cellAt_eq_get?]
  unfold applyWrite
  rw [List.get?_append_right (le_of_eq (applyWrite_prefix_length row))]
  rw [applyWrite_prefix_length]
  rfl

lemma process_row_empty_url
    (provider : List Char → Except TranscriptFailure (List TranscriptItem))
    (extract : List Char → RouteRecord)
    (row : List (List Char)) (n : Nat) (h : cellAt row 4 = []) :
    process_row provider extract row n = (Outcome.skipped "URL is empty", []) := by
  unfold process_row
  rw [if_pos h]

lemma process_row_marker
    (provider : List Char → Except TranscriptFailure (List TranscriptItem))
    (extract : List Char → RouteRecord)
    (row : List (List Char)) (n : Nat)
    (h4 : cellAt row 4 ≠ []) (h12 : cellAt row 12 ≠ []) :
    process_row provider extract row n = (Outcome.skipped "Already analyzed", []) := by
  unfold process_row
  rw [if_neg h4, if_pos h12]

lemma process_row_resolve
    (provider : List Char → Except TranscriptFailure (List TranscriptItem))
    (extract : List Char → RouteRecord)
    (row : List (List Char)) (n : Nat)
    (h4 : ¬ cellAt row 4 = []) (h12 : ¬ cellAt row 12 ≠ []) :
    process_row provider extract row n =
      match get_video_id (cellAt row 4) with
      | none => (Outcome.failed "Invalid YouTube URL format",
          [CallEvent.resolveCall (cellAt row 4)])
      | some video_id =>
        if video_id = [] then
          (Outcome.failed "Invalid YouTube URL format",
            [CallEvent.resolveCall (cellAt row 4)])
        else
          match get_transcript provider video_id with
          | none => (Outcome.failed "Could not retrieve transcript",
              [CallEvent.resolveCall (cellAt row 4), CallEvent.transcriptCall video_id])
          | some transcript =>
            if transcript = [] then
              (Outcome.failed "Could not retrieve transcript",
                [CallEvent.resolveCall (cellAt row 4), CallEvent.transcriptCall video_id])
            else
              (Outcome.written n (write_data (extract transcript)),
                [CallEvent.resolveCall (cellAt row 4), CallEvent.transcriptCall video_id,
                 CallEvent.extractCall transcript]) := by
  unfold process_row
  rw [if_neg h4, if_neg h12]

/-- C2 counterexample: a row whose marker field (column 12) is
non-empty but whose reference field (column 4) is empty is skipped with
reason "URL is empty" — the source checks the reference first — so the
claim "every row with a non-empty marker yields Skipped(already
analyzed)" fails on this row (though it is still skipped with no
collaborator calls). -/
theorem C2_marker_idempotence_counterexample :
    (process_row (fun _ => Except.error TranscriptFailure.disabled)
        (fun _ => ⟨[], [], []⟩)
        [[], [], [], [], [], [], [], [], [], [], [], [], ("X".toList)] 2)
      = (Outcome.skipped "URL is empty", []) ∧
    Outcome.skipped "URL is empty" ≠ Outcome.skipped "Already analyzed" := by
  exact ⟨rfl, by decide⟩

/-- C2 (amended): a row with an empty reference field is skipped
("URL is empty") with no resolution, acquisition or extraction call; a
row with a non-empty reference field and a non-empty marker field is
skipped ("Already analyzed") with no calls; and a second run on a row
whose marker cell was populated by a first run's write (strip of the
written start value non-empty) is skipped ("Already analyzed") with no
calls — hence no second extraction ever happens for such a row. -/
theorem C2_marker_idempotence :
    (∀ provider extract (row : List (List Char)) n, cellAt row 4 = [] →
        process_row provider extract row n = (Outcome.skipped "URL is empty", []))
  ∧ (∀ provider extract (row : List (List Char)) n,
        cellAt row 4 ≠ [] → cellAt row 12 ≠ [] →
        process_row provider extract row n = (Outcome.skipped "Already analyzed", []))
  ∧ (∀ provider extract provider2 extract2 (row : List (List Char)) n vals tr,
        process_row provider extract row n = (Outcome.written n vals, tr) →
        pyStrip (head1 vals) ≠ [] →
        process_row provider2 extract2 (applyWrite row vals) n
          = (Outcome.skipped "Already analyzed", [])) := by
  refine ⟨fun provider extract row n h => process_row_empty_url provider extract row n h,
    fun provider extract row n h4 h12 => process_row_marker provider extract row n h4 h12,
    fun provider extract provider2 extract2 row n vals tr hw hmark => ?_⟩
  have h4 : cellAt row 4 ≠ [] := by
    intro hc
    rw [process_row_empty_url provider extract row n hc] at hw
    exact Outcome.noConfusion (congrArg Prod.fst hw)
  cases vals with
  | nil => exact absurd rfl hmark
  | cons v0 vs =>
    apply process_row_marker
    · rw [cellAt_applyWrite_lt row (v0 :: vs) 4 (by omega)]
      exact h4
    · rw [cellAt_applyWrite_12]
      exact hmark

theorem C2_marker_idempotence_witness :
    process_row (fun _ => Except.ok [⟨"hello".toList, 0, 1⟩])
        (fun _ => ⟨"A".toList, "B".toList, [("w1".toList)]⟩)
        [[], [], [], [], [], [], [], [], [], [], []] 2
      = (Outcome.skipped "URL is empty", []) ∧
    process_row (fun _ => Except.ok [⟨"hello".toList, 0, 1⟩])
        (fun _ => ⟨"A".toList, "B".toList, [("w1".toList)]⟩)
        [[], [], [], [], ("u".toList), [], [], [], [], [], [], [], ("X".toList)] 3
      = (Outcome.skipped "Already analyzed", []) ∧
    process_row (fun _ => Except.ok [⟨"hello".toList, 0, 1⟩])
        (fun _ => ⟨"A".toList, "B".toList, [("w1".toList)]⟩)
        (applyWrite [[], [], [], [], ("youtu.be/abc".toList)]
          (write_data ⟨"A".toList, "B".toList, [("w1".toList)]⟩)) 2
      = (Outcome.skipped "Already analyzed", []) := by
  refine ⟨C2_marker_idempotence.1 _ _ _ 2 (by decide),
    C2_marker_idempotence.2.1 _ _ _ 3 (by decide) (by decide),
    C2_marker_idempotence.2.2
      (fun _ => Except.ok [⟨"hello".toList, 0, 1⟩])
      (fun _ => ⟨"A".toList, "B".toList, [("w1".toList)]⟩)
      (fun _ => Except.ok [⟨"hello".toList, 0, 1⟩])
      (fun _ => ⟨"A".toList, "B".toList, [("w1".toList)]⟩)
      [[], [], [], [], ("youtu.be/abc".toList)] 2
      (write_data ⟨"A".toList, "B".toList, [("w1".toList)]⟩)
      [CallEvent.resolveCall ("youtu.be/abc".toList),
       CallEvent.transcriptCall ("abc".toList),
       CallEvent.extractCall ("hello".toList)]
      (by decide) (by decide)⟩

/-- C9: reading any cell at an offset beyond the row's length yields
the empty string (never an out-of-range fault: the access is modelled
total, like the guarded Python conditional expression), and a row too
short to have a reference cell is skipped as "URL is empty", not
treated as a fault. -/
theorem C9_short_row_tolerance :
    (∀ (row : List (List Char)) (i : Nat), row.length ≤ i → cellAt row i = [])
  ∧ (∀ provider extract (row : List (List Char)) n, row.length ≤ 4 →
      process_row provider extract row n = (Outcome.skipped "URL is empty", [])) := by
  refine ⟨fun row i h => cellAt_out_of_range row i h,
    fun provider extract row n h => ?_⟩
  exact process_row_empty_url _ _ _ _ (cellAt_out_of_range row 4 h)

theorem C9_short_row_tolerance_witness :
    cellAt [("only".toList)] 12 = [] ∧
    process_row (fun _ => Except.error TranscriptFailure.disabled)
        (fun _ => ⟨[], [], []⟩) [("only".toList)] 7
      = (Outcome.skipped "URL is empty", []) := by
  exact ⟨C9_short_row_tolerance.1 _ 12 (by decide),
    C9_short_row_tolerance.2 _ _ _ 7 (by decide)⟩

lemma get_transcript_empty_items
    (provider : List Char → Except TranscriptFailure (List TranscriptItem))
    (hp : ∀ v, provider v = Except.ok []) (v : List Char) :
    get_transcript provider v = some [] := by
  unfold get_transcript
  rw [hp v]
  rfl

/-- C10: if the provider call succeeds but returns an empty fragment
sequence, the joined transcript is the empty string, which is falsy in
Python, so the row takes exactly the same branch as an acquisition
failure: the run of the loop body is identical to a run whose provider
raises, no extraction call is made, and no write is produced — for
every row. -/
theorem C10_empty_transcript_like_failure
    (provider : List Char → Except TranscriptFailure (List TranscriptItem))
    (extract : List Char → RouteRecord)
    (row : List (List Char)) (n : Nat)
    (hp : ∀ v, provider v = Except.ok []) :
    process_row provider extract row n =
      process_row (fun _ => Except.error TranscriptFailure.disabled) extract row n
  ∧ isWritten (process_row provider extract row n).1 = false
  ∧ ∀ ev ∈ (process_row provider extract row n).2, isExtractCall ev = false := by
  by_cases h4 : cellAt row 4 = []
  · rw [process_row_empty_url provider extract row n h4,
      process_row_empty_url _ extract row n h4]
    exact ⟨rfl, rfl, fun ev hev => absurd hev (List.not_mem_nil ev)⟩
  · by_cases h12 : cellAt row 12 ≠ []
    · rw [process_row_marker provider extract row n h4 h12,
        process_row_marker _ extract row n h4 h12]
      exact ⟨rfl, rfl, fun ev hev => absurd hev (List.not_mem_nil ev)⟩
    · refine ⟨?_, ?_, ?_⟩
      · rw [process_row_resolve provider extract row n h4 h12,
          process_row_resolve _ extract row n h4 h12]
        cases hvid : get_video_id (cellAt row 4) with
        | none => rfl
        | some video_id =>
          by_cases hvnil : video_id = []
          · simp only [if_pos hvnil]
          · simp only [if_neg hvnil]
            rw [get_transcript_empty_items provider hp video_id]
            rfl
      · rw [process_row_resolve provider extract row n h4 h12]
        cases hvid : get_video_id (cellAt row 4) with
        | none => rfl
        | some video_id =>
          by_cases hvnil : video_id = []
          · simp only [if_pos hvnil]
            rfl
          · simp only [if_neg hvnil]
            rw [get_transcript_empty_items provider hp video_id]
            rfl
      · rw [process_row_resolve provider extract row n h4 h12]
        cases hvid : get_video_id (cellAt row 4) with
        | none =>
          intro ev hev
          cases hev with
          | head => rfl
          | tail _ htl => exact absurd htl (List.not_mem_nil ev)
        | some video_id =>
          by_cases hvnil : video_id = []
          · simp only [if_pos hvnil]
            intro ev hev
            cases hev with
            | head => rfl
            | tail _ htl => exact absurd htl (List.not_mem_nil ev)
          · simp only [if_neg hvnil]
            rw [get_transcript_empty_items provider hp video_id]
            intro ev hev
            cases hev with
            | head => rfl
            | tail _ htl =>
              cases htl with
              | head => rfl
              | tail _ htl2 => exact absurd htl2 (List.not_mem_nil ev)

theorem C10_empty_transcript_like_failure_witness :
    process_row (fun _ => Except.ok []) (fun _ => ⟨"A".toList, "B".toList, []⟩)
        [[], [], [], [], ("youtu.be/abc".toList)] 2 =
      process_row (fun _ => Except.error TranscriptFailure.disabled)
        (fun _ => ⟨"A".toList, "B".toList, []⟩)
        [[], [], [], [], ("youtu.be/abc".toList)] 2 := by
  exact (C10_empty_transcript_like_failure (fun _ => Except.ok [])
    (fun _ => ⟨"A".toList, "B".toList, []⟩)
    [[], [], [], [], ("youtu.be/abc".toList)] 2 (fun _ => rfl)).1

/-- Environment facts relevant to the module-level initialization
(route_analyzer.py lines 18-46): whether `GCP_SERVICE_ACCOUNT_KEY` is
set, and whether the credential/client construction after the key file
is written succeeds. -/
structure InitEnv where
  sa_key : Option (List Char)
  credsOk : Bool

/-- Observable process state at termination: whether
`service_account_key.json` is still on disk, the process exit code, and
whether the FATAL ERROR handler in `main` ran. -/
structure ProcState where
  fileOnDisk : Bool
  exitCode : Nat
  fatalReported : Bool
deriving DecidableEq

/-- Module initialization (route_analyzer.py lines 18-46): a missing
key raises before the key file is written, the `except` arm prints and
calls `exit(1)`; otherwise the key is written to
`service_account_key.json` and the credential/client construction
either succeeds (execution proceeds to `main`) or raises, in which
case the `except` arm exits with code 1 — with no cleanup of the
already-written file.  The Bool is "proceed to main". -/
def module_init (env : InitEnv) : ProcState × Bool :=
  match env.sa_key with
  | none => ({ fileOnDisk := false, exitCode := 1, fatalReported := false }, false)
  | some _ =>
    if env.credsOk then
      ({ fileOnDisk := true, exitCode := 0, fatalReported := false }, true)
    else
      ({ fileOnDisk := true, exitCode := 1, fatalReported := false }, false)

/-- `main`'s `try/except/finally` (route_analyzer.py lines 129-219)
over an abstract body outcome: an exception escaping the body is caught
and reported ("FATAL ERROR in main execution"), the `finally` clause
removes the key file in every case, and `main` returns normally — so
the interpreter ends the script with the exit code unchanged (0). -/
def main_run (body : Except (List Char) Unit) (s : ProcState) : ProcState :=
  match body with
  | Except.ok _ => { s with fileOnDisk := false }
  | Except.error _ => { s with fileOnDisk := false, fatalReported := true }

/-- The whole process: module initialization, then `main` when
initialization succeeded. -/
def run_process (env : InitEnv) (body : Except (List Char) Unit) : ProcState :=
  match module_init env with
  | (s, true) => main_run body s
  | (s, false) => s

/-- C7 counterexample: a fatal error in `main` (after successful client
initialization) is caught, reported, and cleaned up after — but the
process exit code is 0, not non-zero: `main`'s `except` arm neither
re-raises nor calls `exit`, so the script terminates normally. -/
theorem C7_fatal_error_counterexample :
    ¬ ((run_process ⟨some ("key".toList), true⟩
        (Except.error ("boom".toList))).exitCode ≠ 0) := by
  decide

/-- C7 (amended): every fatal error raised during the overall run after
client initialization is caught and reported, the cleanup step
(deleting the temporary credential file) is still performed — but the
process then terminates normally with exit code 0 (the error is
swallowed; no non-zero status is produced). -/
theorem C7_fatal_error_caught_cleanup_exit_zero (k e : List Char) :
    run_process ⟨some k, true⟩ (Except.error e) =
      { fileOnDisk := false, exitCode := 0, fatalReported := true } := rfl

/-- C8: evaluation at the failing input.  When the key variable is
present but client construction fails after the key file was written
(e.g. a malformed service-account key), the process exits with code 1
while `service_account_key.json` is still on disk: the init `except`
arm performs no cleanup, contradicting the claim that the credential
file is deleted on every exit path.  The other paths do clean up:
missing key (file never written) and every path through `main`. -/
theorem C8_init_failure_leaks_credential_file (k : List Char)
    (body : Except (List Char) Unit) :
    run_process ⟨some k, false⟩ body
        = { fileOnDisk := true, exitCode := 1, fatalReported := false }
    ∧ (run_process ⟨none, false⟩ body).fileOnDisk = false
    ∧ (run_process ⟨some k, true⟩ body).fileOnDisk = false := by
  refine ⟨rfl, rfl, ?_⟩
  cases body with
  | ok _ => rfl
  | error _ => rfl
